import Mathlib

/-!
# Community Clinic Load Manager — shallow embedding and verification

This file embeds the core of the Community Clinic Load Manager repository
(`models.py`, `scheduler.py`, `state.py`, with the call structure of
`main.py`/`simulation.py`) in Lean 4 and proves properties of its routing
policy, load accounting and decay process.

Modelling conventions:
- Python `float` loads/durations/timestamps are embedded as `ℚ` (exact
  arithmetic), `int` capacities/urgencies as `ℤ`, ids as `ℕ`.
- `float("inf")` returned by `Center.predicted_wait_time` is embedded as `⊤`
  in `WithTop ℚ`.
- `SystemState.centers` and `SystemState.requests` are Python dicts keyed by
  monotonically assigned ids and iterated in insertion order; they are
  embedded as lists in insertion order.
- Python `min(xs, key=k)` / `max(xs, key=k)` keep the first element attaining
  the optimum; they are embedded as `pyMinBy` / `pyMaxBy` below.
- The per-center `threading.Lock` is data-free; the concurrency claims are
  treated over interleavings of the atomic locked critical sections.
-/

/-- Embedding of `models.Center` (the `lock` field carries no data and is
omitted; the critical sections it guards are modelled as atomic steps). -/
structure Center where
  id : Nat
  name : String
  capacity : Int
  current_load : ℚ
  is_up : Bool
deriving Repr, DecidableEq

/-- Embedding of `models.AppointmentRequest`. -/
structure AppointmentRequest where
  id : Nat
  urgency : Int
  expected_duration : ℚ
  arrival_time : ℚ
  assigned_center_id : Option Nat
deriving Repr, DecidableEq

/-- Embedding of `models.RoutingEvent`. -/
structure RoutingEvent where
  timestamp : ℚ
  request_id : Nat
  center_id : Nat
  reason : String
deriving Repr, DecidableEq

/-- Embedding of `Center.predicted_wait_time` from `models.py`:
returns `float("inf")` (here `⊤`) when the center is down or has
non-positive capacity, else `(current_load + extra_work) / capacity`. -/
def Center.predicted_wait_time (c : Center) (extra_work : ℚ) : WithTop ℚ :=
  if c.is_up = false ∨ c.capacity ≤ 0 then ⊤
  else ((c.current_load + extra_work) / (c.capacity : ℚ) : ℚ)

/-- Python `min(a :: l, key)`: fold keeping the current best, replacing it
only when a later element has a strictly smaller key (first-wins on ties). -/
def pyMinBy {α β : Type} [LinearOrder β] (key : α → β) (a : α) (l : List α) : α :=
  l.foldl (fun best c => if key c < key best then c else best) a

/-- Python `max(a :: l, key)`: fold keeping the current best, replacing it
only when a later element has a strictly larger key (first-wins on ties). -/
def pyMaxBy {α β : Type} [LinearOrder β] (key : α → β) (a : α) (l : List α) : α :=
  l.foldl (fun best c => if key best < key c then c else best) a

/-- Embedding of `scheduler.choose_best_center` (acting on the registry's
center list in insertion order): filter candidates (up, positive capacity);
urgency ≤ 5 picks the SJF minimum of predicted wait; urgency ≥ 6 picks the
max-capacity center when it differs from the SJF choice. `candidate_filter`
embeds the list comprehension over `system_state.centers.values()`. -/
def candidate_filter (centers : List Center) : List Center :=
  centers.filter (fun c => c.is_up && decide (0 < c.capacity))

def choose_best_center (centers : List Center) (request : AppointmentRequest) :
    Option (Center × String) :=
  match candidate_filter centers with
  | [] => none
  | first :: rest =>
    let sjf_center :=
      pyMinBy (fun c => c.predicted_wait_time request.expected_duration) first rest
    if request.urgency ≤ 5 then
      some (sjf_center, "least_loaded_sjf")
    else
      let priority_center := pyMaxBy (fun c => c.capacity) first rest
      if priority_center.id ≠ sjf_center.id then
        some (priority_center, "priority_override")
      else
        some (sjf_center, "least_loaded_sjf")

/-- Embedding of `state.SystemState` (dicts as insertion-ordered lists). -/
structure SystemState where
  centers : List Center
  requests : List AppointmentRequest
  history : List RoutingEvent
  next_center_id : Nat
  next_request_id : Nat
deriving Repr, DecidableEq

/-- The state `SystemState.__init__` builds. -/
def SystemState.init : SystemState :=
  { centers := [], requests := [], history := [], next_center_id := 1,
    next_request_id := 1 }

/-- Embedding of `SystemState.add_center`. -/
def SystemState.add_center (s : SystemState) (name : String) (capacity : Int) :
    SystemState × Center :=
  let center : Center :=
    { id := s.next_center_id, name := name, capacity := capacity,
      current_load := 0, is_up := true }
  ({ s with centers := s.centers ++ [center],
            next_center_id := s.next_center_id + 1 }, center)

/-- Embedding of `SystemState.create_request` (`arrival` stands for the
`time.time()` call). -/
def SystemState.create_request (s : SystemState) (urgency : Int)
    (expected_duration arrival : ℚ) : SystemState × AppointmentRequest :=
  let req : AppointmentRequest :=
    { id := s.next_request_id, urgency := urgency,
      expected_duration := expected_duration, arrival_time := arrival,
      assigned_center_id := none }
  ({ s with requests := s.requests ++ [req],
            next_request_id := s.next_request_id + 1 }, req)

/-- Embedding of `SystemState.add_event`. -/
def SystemState.add_event (s : SystemState) (e : RoutingEvent) : SystemState :=
  { s with history := s.history ++ [e] }

/-- The per-center body of one `SystemState.decay_load` tick: only a center
with strictly positive load is touched, and it is floored at `0` after
subtracting `decay_step * capacity / 10`. -/
def decay_center (decay_step : ℚ) (c : Center) : Center :=
  if 0 < c.current_load then
    { c with current_load := max 0 (c.current_load - decay_step * (c.capacity : ℚ) / 10) }
  else c

/-- Embedding of `SystemState.decay_load`: one tick applies `decay_center`
to every center in the registry. -/
def SystemState.decay_load (s : SystemState) (decay_step : ℚ) : SystemState :=
  { s with centers := s.centers.map (decay_center decay_step) }

/-- Embedding of `scheduler.route_request` acting on the system state.
Python mutates the chosen center object in place (update-by-id here, the
registry assigns unique ids), sets `request.assigned_center_id` on the
request object (which `main.py` stores in `state.requests`), and appends one
event; `now` stands for the `time.time()` call. Returns the new state and,
on success, the chosen center's id with the reason code. -/
def route_request (s : SystemState) (req : AppointmentRequest) (now : ℚ) :
    SystemState × Option (Nat × String) :=
  match choose_best_center s.centers req with
  | none => (s, none)
  | some (center, reason) =>
    let centers' := s.centers.map (fun c =>
      if c.id = center.id then
        { c with current_load := c.current_load + req.expected_duration }
      else c)
    let requests' := s.requests.map (fun r =>
      if r.id = req.id then { r with assigned_center_id := some center.id } else r)
    let s' := { s with centers := centers', requests := requests' }
    (s'.add_event { timestamp := now, request_id := req.id,
                    center_id := center.id, reason := reason },
     some (center.id, reason))

/-! ## First-wins fold minima/maxima

Python's `min`/`max` with a key keep the first element attaining the
optimum. Over a list whose `idf` values are strictly increasing, the result
is therefore the optimum of lowest `idf`. -/

theorem pyMinBy_spec {α β : Type} [LinearOrder β] (key : α → β) (idf : α → Nat)
    (l : List α) : ∀ a : α, (a :: l).Pairwise (fun x y => idf x < idf y) →
    pyMinBy key a l ∈ a :: l ∧
    (∀ c ∈ a :: l, key (pyMinBy key a l) ≤ key c) ∧
    (∀ c ∈ a :: l, key c = key (pyMinBy key a l) → idf (pyMinBy key a l) ≤ idf c) := by
  induction l with
  | nil =>
    intro a _
    refine ⟨by simp [pyMinBy], ?_, ?_⟩
    · intro c hc
      simp only [List.mem_singleton] at hc
      simp [pyMinBy, hc]
    · intro c hc _
      simp only [List.mem_singleton] at hc
      simp [pyMinBy, hc]
  | cons b l ih =>
    intro a hpw
    rw [List.pairwise_cons] at hpw
    obtain ⟨halt, hbl⟩ := hpw
    have hab : idf a < idf b := halt b (List.mem_cons_self b l)
    have hal : ∀ x ∈ l, idf a < idf x := fun x hx => halt x (List.mem_cons_of_mem b hx)
    have hl : l.Pairwise fun x y => idf x < idf y := (List.pairwise_cons.mp hbl).2
    have hstep : pyMinBy key a (b :: l) = pyMinBy key (if key b < key a then b else a) l := rfl
    by_cases hba : key b < key a
    · rw [hstep, if_pos hba]
      obtain ⟨hmem, hmin, hties⟩ := ih b hbl
      refine ⟨?_, ?_, ?_⟩
      · rcases List.mem_cons.mp hmem with h | h
        · exact List.mem_cons_of_mem a (List.mem_cons.mpr (Or.inl h))
        · exact List.mem_cons_of_mem a (List.mem_cons_of_mem b h)
      · intro c hc
        rcases List.mem_cons.mp hc with h | hc'
        · subst h
          exact le_of_lt (lt_of_le_of_lt (hmin b (List.mem_cons_self b l)) hba)
        · exact hmin c hc'
      · intro c hc hkey
        rcases List.mem_cons.mp hc with h | hc'
        · subst h
          exact absurd hkey.symm
            (ne_of_lt (lt_of_le_of_lt (hmin b (List.mem_cons_self b l)) hba))
        · exact hties c hc' hkey
    · rw [hstep, if_neg hba]
      have hab' : key a ≤ key b := le_of_not_lt hba
      have hpw' : (a :: l).Pairwise fun x y => idf x < idf y :=
        List.pairwise_cons.mpr ⟨hal, hl⟩
      obtain ⟨hmem, hmin, hties⟩ := ih a hpw'
      refine ⟨?_, ?_, ?_⟩
      · rcases List.mem_cons.mp hmem with h | h
        · exact List.mem_cons.mpr (Or.inl h)
        · exact List.mem_cons_of_mem a (List.mem_cons_of_mem b h)
      · intro c hc
        rcases List.mem_cons.mp hc with h | hc'
        · rw [h]
          exact hmin a (List.mem_cons_self a l)
        rcases List.mem_cons.mp hc' with h | hc''
        · rw [h]
          exact le_trans (hmin a (List.mem_cons_self a l)) hab'
        · exact hmin c (List.mem_cons_of_mem a hc'')
      · intro c hc hkey
        rcases List.mem_cons.mp hc with h | hc'
        · rw [h] at hkey
          rw [h]
          exact hties a (List.mem_cons_self a l) hkey
        rcases List.mem_cons.mp hc' with h | hc''
        · rw [h] at hkey
          rw [h]
          have h1 : key (pyMinBy key a l) ≤ key a := hmin a (List.mem_cons_self a l)
          have h2 : key a = key (pyMinBy key a l) := le_antisymm (hkey ▸ hab') h1
          exact le_trans (hties a (List.mem_cons_self a l) h2) (le_of_lt hab)
        · exact hties c (List.mem_cons_of_mem a hc'') hkey

theorem pyMaxBy_eq_dual {α β : Type} [LinearOrder β] (key : α → β) (a : α)
    (l : List α) :
    pyMaxBy key a l = pyMinBy (fun c => OrderDual.toDual (key c)) a l := by
  unfold pyMaxBy pyMinBy
  rfl

theorem pyMaxBy_spec {α β : Type} [LinearOrder β] (key : α → β) (idf : α → Nat)
    (l : List α) (a : α) (hpw : (a :: l).Pairwise (fun x y => idf x < idf y)) :
    pyMaxBy key a l ∈ a :: l ∧
    (∀ c ∈ a :: l, key c ≤ key (pyMaxBy key a l)) ∧
    (∀ c ∈ a :: l, key c = key (pyMaxBy key a l) → idf (pyMaxBy key a l) ≤ idf c) := by
  have h := pyMinBy_spec (fun c => OrderDual.toDual (key c)) idf l a hpw
  rw [pyMaxBy_eq_dual]
  refine ⟨h.1, ?_, ?_⟩
  · intro c hc
    exact_mod_cast h.2.1 c hc
  · intro c hc hkey
    exact h.2.2 c hc (by exact_mod_cast hkey)

/-! ## Candidate set and predicted wait on candidates -/

theorem candidate_filter_mem (centers : List Center) (c : Center) :
    c ∈ candidate_filter centers ↔ c ∈ centers ∧ c.is_up = true ∧ 0 < c.capacity := by
  simp [candidate_filter, List.mem_filter, and_assoc]

theorem predicted_wait_coe (c : Center) (hup : c.is_up = true) (hcap : 0 < c.capacity)
    (x : ℚ) :
    c.predicted_wait_time x = ((c.current_load + x) / (c.capacity : ℚ) : ℚ) := by
  unfold Center.predicted_wait_time
  rw [if_neg]
  push_neg
  exact ⟨by simp [hup], hcap⟩

/-- C1: for a registry with at least one candidate (up, positive capacity) —
listed, as the registry guarantees, in strictly increasing id order — and a
request of urgency ≤ 5, `choose_best_center` returns the reason code
`least_loaded_sjf` together with a candidate that minimizes
`(current_load + expected_duration) / capacity` over all candidates, ties
going to the lowest id. -/
theorem route_low_urgency_selects_sjf (s : SystemState) (req : AppointmentRequest)
    (hsort : s.centers.Pairwise (fun a b => a.id < b.id))
    (hurg : req.urgency ≤ 5)
    (c0 : Center) (hc0 : c0 ∈ s.centers) (hup : c0.is_up = true)
    (hcap : 0 < c0.capacity) :
    ∃ best : Center,
      choose_best_center s.centers req = some (best, "least_loaded_sjf") ∧
      best ∈ s.centers ∧ best.is_up = true ∧ 0 < best.capacity ∧
      (∀ c ∈ s.centers, c.is_up = true → 0 < c.capacity →
        (best.current_load + req.expected_duration) / (best.capacity : ℚ) ≤
          (c.current_load + req.expected_duration) / (c.capacity : ℚ)) ∧
      (∀ c ∈ s.centers, c.is_up = true → 0 < c.capacity →
        (c.current_load + req.expected_duration) / (c.capacity : ℚ) =
          (best.current_load + req.expected_duration) / (best.capacity : ℚ) →
        best.id ≤ c.id) := by
  have hc0f : c0 ∈ candidate_filter s.centers :=
    (candidate_filter_mem s.centers c0).mpr ⟨hc0, hup, hcap⟩
  cases hcand : candidate_filter s.centers with
  | nil =>
    rw [hcand] at hc0f
    exact absurd hc0f (List.not_mem_nil c0)
  | cons first rest =>
    have hpwf : (first :: rest).Pairwise (fun a b => a.id < b.id) := by
      rw [← hcand]
      exact List.Pairwise.sublist (List.filter_sublist _) hsort
    obtain ⟨hmem, hmin, hties⟩ :=
      pyMinBy_spec (fun c => c.predicted_wait_time req.expected_duration)
        Center.id rest first hpwf
    refine ⟨pyMinBy (fun c => c.predicted_wait_time req.expected_duration) first rest,
      ?_, ?_, ?_, ?_, ?_, ?_⟩
    · simp [choose_best_center, hcand, hurg]
    · have : pyMinBy (fun c => c.predicted_wait_time req.expected_duration) first rest ∈
          candidate_filter s.centers := by rw [hcand]; exact hmem
      exact ((candidate_filter_mem s.centers _).mp this).1
    · have : pyMinBy (fun c => c.predicted_wait_time req.expected_duration) first rest ∈
          candidate_filter s.centers := by rw [hcand]; exact hmem
      exact ((candidate_filter_mem s.centers _).mp this).2.1
    · have : pyMinBy (fun c => c.predicted_wait_time req.expected_duration) first rest ∈
          candidate_filter s.centers := by rw [hcand]; exact hmem
      exact ((candidate_filter_mem s.centers _).mp this).2.2
    · intro c hc hcu hcc
      have hbf : pyMinBy (fun c => c.predicted_wait_time req.expected_duration) first rest ∈
          candidate_filter s.centers := by rw [hcand]; exact hmem
      obtain ⟨-, hbup, hbcap⟩ := (candidate_filter_mem s.centers _).mp hbf
      have hcf : c ∈ first :: rest := by
        rw [← hcand]
        exact (candidate_filter_mem s.centers c).mpr ⟨hc, hcu, hcc⟩
      have h := hmin c hcf
      rw [predicted_wait_coe c hcu hcc, predicted_wait_coe _ hbup hbcap] at h
      exact_mod_cast h
    · intro c hc hcu hcc heq
      have hbf : pyMinBy (fun c => c.predicted_wait_time req.expected_duration) first rest ∈
          candidate_filter s.centers := by rw [hcand]; exact hmem
      obtain ⟨-, hbup, hbcap⟩ := (candidate_filter_mem s.centers _).mp hbf
      have hcf : c ∈ first :: rest := by
        rw [← hcand]
        exact (candidate_filter_mem s.centers c).mpr ⟨hc, hcu, hcc⟩
      refine hties c hcf ?_
      rw [predicted_wait_coe c hcu hcc, predicted_wait_coe _ hbup hbcap]
      exact_mod_cast heq

/-! ## Concrete registry scenarios from the spec -/

def exCenterA : Center :=
  { id := 1, name := "A", capacity := 10, current_load := 0, is_up := true }

def exCenterB : Center :=
  { id := 2, name := "B", capacity := 5, current_load := 0, is_up := true }

def exStateAB : SystemState :=
  { centers := [exCenterA, exCenterB], requests := [], history := [],
    next_center_id := 3, next_request_id := 1 }

def exReqLow : AppointmentRequest :=
  { id := 1, urgency := 3, expected_duration := 20, arrival_time := 0,
    assigned_center_id := none }

/-- Witness for C1: the spec's Tier-A scenario (A capacity 10, B capacity 5,
both empty; urgency 3, duration 20). -/
theorem route_low_urgency_selects_sjf_witness :
    exStateAB.centers.Pairwise (fun a b => a.id < b.id) ∧
    exReqLow.urgency ≤ 5 ∧ exCenterA ∈ exStateAB.centers ∧
    exCenterA.is_up = true ∧ 0 < exCenterA.capacity ∧
    (∃ best : Center,
      choose_best_center exStateAB.centers exReqLow = some (best, "least_loaded_sjf") ∧
      best ∈ exStateAB.centers ∧ best.is_up = true ∧ 0 < best.capacity ∧
      (∀ c ∈ exStateAB.centers, c.is_up = true → 0 < c.capacity →
        (best.current_load + exReqLow.expected_duration) / (best.capacity : ℚ) ≤
          (c.current_load + exReqLow.expected_duration) / (c.capacity : ℚ)) ∧
      (∀ c ∈ exStateAB.centers, c.is_up = true → 0 < c.capacity →
        (c.current_load + exReqLow.expected_duration) / (c.capacity : ℚ) =
          (best.current_load + exReqLow.expected_duration) / (best.capacity : ℚ) →
        best.id ≤ c.id)) :=
  ⟨by decide, by decide, by decide, by decide, by decide,
    route_low_urgency_selects_sjf exStateAB exReqLow (by decide) (by decide)
      exCenterA (by decide) (by decide) (by decide)⟩

/-- C2: for a registry with at least one candidate, listed in strictly
increasing id order, and a request of urgency ≥ 6, `choose_best_center`
picks either the SJF candidate (minimal predicted wait, ties to lowest id)
or the maximum-capacity candidate (ties to lowest id): the latter with
reason `priority_override` exactly when the two differ, the former with
reason `least_loaded_sjf` otherwise. -/
theorem route_high_urgency_override (s : SystemState) (req : AppointmentRequest)
    (hsort : s.centers.Pairwise (fun a b => a.id < b.id))
    (hurg : 6 ≤ req.urgency)
    (c0 : Center) (hc0 : c0 ∈ s.centers) (hup : c0.is_up = true)
    (hcap : 0 < c0.capacity) :
    ∃ sjf prio : Center,
      sjf ∈ s.centers ∧ sjf.is_up = true ∧ 0 < sjf.capacity ∧
      prio ∈ s.centers ∧ prio.is_up = true ∧ 0 < prio.capacity ∧
      (∀ c ∈ s.centers, c.is_up = true → 0 < c.capacity →
        (sjf.current_load + req.expected_duration) / (sjf.capacity : ℚ) ≤
          (c.current_load + req.expected_duration) / (c.capacity : ℚ)) ∧
      (∀ c ∈ s.centers, c.is_up = true → 0 < c.capacity →
        (c.current_load + req.expected_duration) / (c.capacity : ℚ) =
          (sjf.current_load + req.expected_duration) / (sjf.capacity : ℚ) →
        sjf.id ≤ c.id) ∧
      (∀ c ∈ s.centers, c.is_up = true → 0 < c.capacity → c.capacity ≤ prio.capacity) ∧
      (∀ c ∈ s.centers, c.is_up = true → 0 < c.capacity →
        c.capacity = prio.capacity → prio.id ≤ c.id) ∧
      (prio.id ≠ sjf.id →
        choose_best_center s.centers req = some (prio, "priority_override")) ∧
      (prio.id = sjf.id →
        choose_best_center s.centers req = some (sjf, "least_loaded_sjf")) := by
  have hurg' : ¬ req.urgency ≤ 5 := by omega
  have hc0f : c0 ∈ candidate_filter s.centers :=
    (candidate_filter_mem s.centers c0).mpr ⟨hc0, hup, hcap⟩
  cases hcand : candidate_filter s.centers with
  | nil =>
    rw [hcand] at hc0f
    exact absurd hc0f (List.not_mem_nil c0)
  | cons first rest =>
    have hpwf : (first :: rest).Pairwise (fun a b => a.id < b.id) := by
      rw [← hcand]
      exact List.Pairwise.sublist (List.filter_sublist _) hsort
    obtain ⟨hsmem, hsmin, hsties⟩ :=
      pyMinBy_spec (fun c => c.predicted_wait_time req.expected_duration)
        Center.id rest first hpwf
    obtain ⟨hpmem, hpmax, hpties⟩ :=
      pyMaxBy_spec (fun c => c.capacity) Center.id rest first hpwf
    have hsf : pyMinBy (fun c => c.predicted_wait_time req.expected_duration) first rest ∈
        candidate_filter s.centers := by rw [hcand]; exact hsmem
    have hpf : pyMaxBy (fun c => c.capacity) first rest ∈ candidate_filter s.centers := by
      rw [hcand]; exact hpmem
    obtain ⟨hsmem', hsup, hscap⟩ := (candidate_filter_mem s.centers _).mp hsf
    obtain ⟨hpmem', hpup, hpcap⟩ := (candidate_filter_mem s.centers _).mp hpf
    refine ⟨pyMinBy (fun c => c.predicted_wait_time req.expected_duration) first rest,
      pyMaxBy (fun c => c.capacity) first rest,
      hsmem', hsup, hscap, hpmem', hpup, hpcap, ?_, ?_, ?_, ?_, ?_, ?_⟩
    · intro c hc hcu hcc
      have hcf : c ∈ first :: rest := by
        rw [← hcand]
        exact (candidate_filter_mem s.centers c).mpr ⟨hc, hcu, hcc⟩
      have h := hsmin c hcf
      rw [predicted_wait_coe c hcu hcc, predicted_wait_coe _ hsup hscap] at h
      exact_mod_cast h
    · intro c hc hcu hcc heq
      have hcf : c ∈ first :: rest := by
        rw [← hcand]
        exact (candidate_filter_mem s.centers c).mpr ⟨hc, hcu, hcc⟩
      refine hsties c hcf ?_
      rw [predicted_wait_coe c hcu hcc, predicted_wait_coe _ hsup hscap]
      exact_mod_cast heq
    · intro c hc hcu hcc
      have hcf : c ∈ first :: rest := by
        rw [← hcand]
        exact (candidate_filter_mem s.centers c).mpr ⟨hc, hcu, hcc⟩
      exact hpmax c hcf
    · intro c hc hcu hcc heq
      have hcf : c ∈ first :: rest := by
        rw [← hcand]
        exact (candidate_filter_mem s.centers c).mpr ⟨hc, hcu, hcc⟩
      exact hpties c hcf heq
    · intro hne
      simp only [choose_best_center, hcand, if_neg hurg']
      rw [if_pos hne]
    · intro heq
      simp only [choose_best_center, hcand, if_neg hurg']
      rw [if_neg (by simpa using heq)]

def exCenterSmall : Center :=
  { id := 1, name := "A", capacity := 10, current_load := 0, is_up := true }

def exCenterLarge : Center :=
  { id := 2, name := "B", capacity := 50, current_load := 40, is_up := true }

def exStateHigh : SystemState :=
  { centers := [exCenterSmall, exCenterLarge], requests := [], history := [],
    next_center_id := 3, next_request_id := 1 }

def exReqHigh : AppointmentRequest :=
  { id := 1, urgency := 9, expected_duration := 5, arrival_time := 0,
    assigned_center_id := none }

/-- Witness for C2: the spec's Tier-B scenario (small empty center vs large
busy center; urgency 9, duration 5 — the large one wins by override). -/
theorem route_high_urgency_override_witness :
    exStateHigh.centers.Pairwise (fun a b => a.id < b.id) ∧
    6 ≤ exReqHigh.urgency ∧ exCenterSmall ∈ exStateHigh.centers ∧
    exCenterSmall.is_up = true ∧ 0 < exCenterSmall.capacity ∧
    (∃ sjf prio : Center,
      sjf ∈ exStateHigh.centers ∧ sjf.is_up = true ∧ 0 < sjf.capacity ∧
      prio ∈ exStateHigh.centers ∧ prio.is_up = true ∧ 0 < prio.capacity ∧
      (∀ c ∈ exStateHigh.centers, c.is_up = true → 0 < c.capacity →
        (sjf.current_load + exReqHigh.expected_duration) / (sjf.capacity : ℚ) ≤
          (c.current_load + exReqHigh.expected_duration) / (c.capacity : ℚ)) ∧
      (∀ c ∈ exStateHigh.centers, c.is_up = true → 0 < c.capacity →
        (c.current_load + exReqHigh.expected_duration) / (c.capacity : ℚ) =
          (sjf.current_load + exReqHigh.expected_duration) / (sjf.capacity : ℚ) →
        sjf.id ≤ c.id) ∧
      (∀ c ∈ exStateHigh.centers, c.is_up = true → 0 < c.capacity →
        c.capacity ≤ prio.capacity) ∧
      (∀ c ∈ exStateHigh.centers, c.is_up = true → 0 < c.capacity →
        c.capacity = prio.capacity → prio.id ≤ c.id) ∧
      (prio.id ≠ sjf.id →
        choose_best_center exStateHigh.centers exReqHigh =
          some (prio, "priority_override")) ∧
      (prio.id = sjf.id →
        choose_best_center exStateHigh.centers exReqHigh =
          some (sjf, "least_loaded_sjf"))) :=
  ⟨by decide, by decide, by decide, by decide, by decide,
    route_high_urgency_override exStateHigh exReqHigh (by decide) (by decide)
      exCenterSmall (by decide) (by decide) (by decide)⟩

/-- Concrete evaluation of the routing choice on the Tier-A scenario. -/
theorem exChoiceLow :
    choose_best_center exStateAB.centers exReqLow =
      some (exCenterA, "least_loaded_sjf") := by
  norm_num [choose_best_center, candidate_filter, pyMinBy, Center.predicted_wait_time,
    exStateAB, exCenterA, exCenterB, exReqLow, List.filter]
  exact_mod_cast (by norm_num : (2:ℚ) ≤ 4)

/-- C3: when routing succeeds, the side effects are exactly: the chosen
center's `current_load` grows by `expected_duration`, the request's
`assigned_center_id` is set to the chosen center's id, one routing event
carrying the request id, center id and policy reason code is appended, and
nothing else in the state changes. -/
theorem route_success_effects (s : SystemState) (req : AppointmentRequest)
    (now : ℚ) (center : Center) (reason : String)
    (hch : choose_best_center s.centers req = some (center, reason)) :
    (route_request s req now).2 = some (center.id, reason) ∧
    (route_request s req now).1.centers = s.centers.map (fun c =>
      if c.id = center.id then
        { c with current_load := c.current_load + req.expected_duration }
      else c) ∧
    (route_request s req now).1.requests = s.requests.map (fun r =>
      if r.id = req.id then { r with assigned_center_id := some center.id }
      else r) ∧
    (route_request s req now).1.history =
      s.history ++ [{ timestamp := now, request_id := req.id,
                      center_id := center.id, reason := reason }] ∧
    (route_request s req now).1.next_center_id = s.next_center_id ∧
    (route_request s req now).1.next_request_id = s.next_request_id := by
  simp [route_request, hch, SystemState.add_event]

/-- Witness for C3 on the Tier-A scenario registry. -/
theorem route_success_effects_witness :
    choose_best_center exStateAB.centers exReqLow =
      some (exCenterA, "least_loaded_sjf") ∧
    ((route_request exStateAB exReqLow 0).2 =
      some (exCenterA.id, "least_loaded_sjf") ∧
    (route_request exStateAB exReqLow 0).1.centers = exStateAB.centers.map (fun c =>
      if c.id = exCenterA.id then
        { c with current_load := c.current_load + exReqLow.expected_duration }
      else c) ∧
    (route_request exStateAB exReqLow 0).1.requests =
      exStateAB.requests.map (fun r =>
        if r.id = exReqLow.id then { r with assigned_center_id := some exCenterA.id }
        else r) ∧
    (route_request exStateAB exReqLow 0).1.history =
      exStateAB.history ++ [{ timestamp := 0, request_id := exReqLow.id,
                              center_id := exCenterA.id,
                              reason := "least_loaded_sjf" }] ∧
    (route_request exStateAB exReqLow 0).1.next_center_id =
      exStateAB.next_center_id ∧
    (route_request exStateAB exReqLow 0).1.next_request_id =
      exStateAB.next_request_id) :=
  ⟨exChoiceLow,
    route_success_effects exStateAB exReqLow 0 exCenterA "least_loaded_sjf"
      exChoiceLow⟩

/-- C4: when no center is both up and of positive capacity, `route_request`
returns the failure signal and the state is completely unchanged: no load
moves, no request is assigned, no event is appended. -/
theorem route_no_candidates (s : SystemState) (req : AppointmentRequest) (now : ℚ)
    (h : ∀ c ∈ s.centers, ¬(c.is_up = true ∧ 0 < c.capacity)) :
    route_request s req now = (s, none) := by
  have hnil : candidate_filter s.centers = [] := by
    rw [candidate_filter, List.filter_eq_nil_iff]
    intro c hc
    simpa using h c hc
  simp [route_request, choose_best_center, hnil]

def exStateDown : SystemState :=
  { centers := [{ id := 1, name := "D", capacity := 10, current_load := 3,
                  is_up := false },
                { id := 2, name := "Z", capacity := 0, current_load := 0,
                  is_up := true }],
    requests := [], history := [], next_center_id := 3, next_request_id := 1 }

/-- Witness for C4: a registry whose centers are all down or of zero
capacity rejects the request without mutation. -/
theorem route_no_candidates_witness :
    (∀ c ∈ exStateDown.centers, ¬(c.is_up = true ∧ 0 < c.capacity)) ∧
    route_request exStateDown exReqLow 0 = (exStateDown, none) :=
  ⟨by decide, route_no_candidates exStateDown exReqLow 0 (by decide)⟩

/-! ## Decay -/

def exCenterNeg : Center :=
  { id := 1, name := "N", capacity := -10, current_load := 0, is_up := true }

def exStateNeg : SystemState :=
  { centers := [exCenterNeg], requests := [], history := [],
    next_center_id := 2, next_request_id := 1 }

/-- Counterexample to C5 as stated: a registry may hold a center of negative
capacity (`add_center` validates nothing) at load `0`; a decay tick with
`decay_step = 1` leaves its load at `0`, while the claimed formula
`max(0, current_load - decay_step * capacity / 10)` gives `1`. -/
theorem decay_formula_counterexample :
    (exStateNeg.decay_load 1).centers.map Center.current_load = [0] ∧
    max (0:ℚ) (exCenterNeg.current_load - 1 * (exCenterNeg.capacity : ℚ) / 10) = 1 ∧
    (exStateNeg.decay_load 1).centers.map Center.current_load ≠
      [max (0:ℚ) (exCenterNeg.current_load - 1 * (exCenterNeg.capacity : ℚ) / 10)] := by
  refine ⟨?_, ?_, ?_⟩ <;>
    norm_num [SystemState.decay_load, decay_center, exStateNeg, exCenterNeg]

def exCenterBusy : Center :=
  { id := 1, name := "S", capacity := 10, current_load := 50, is_up := true }

def exStateBusy : SystemState :=
  { centers := [exCenterBusy], requests := [], history := [],
    next_center_id := 2, next_request_id := 1 }

/-- C5 (amended): a decay tick leaves a center at non-positive load
unchanged, and otherwise sets its load to
`max(0, current_load - decay_step * capacity / 10)`; in particular, a single
center of capacity 10 at load 50 is at load 49 after one tick with
`decay_step = 1`. -/
theorem decay_tick_load (s : SystemState) (step : ℚ) (i : Nat) (c : Center)
    (h : s.centers[i]? = some c) :
    (s.decay_load step).centers[i]? =
      some (if 0 < c.current_load then
              { c with current_load := max 0 (c.current_load - step * (c.capacity : ℚ) / 10) }
            else c) ∧
    (exStateBusy.decay_load 1).centers.map Center.current_load = [49] := by
  constructor
  · simp [SystemState.decay_load, List.getElem?_map, h, decay_center]
  · norm_num [SystemState.decay_load, decay_center, exStateBusy, exCenterBusy]

/-- Witness for the amended C5 at the center of negative capacity. -/
theorem decay_tick_load_witness :
    exStateNeg.centers[0]? = some exCenterNeg ∧
    ((exStateNeg.decay_load 1).centers[0]? =
      some (if 0 < exCenterNeg.current_load then
              { exCenterNeg with current_load := max 0 (exCenterNeg.current_load - 1 * (exCenterNeg.capacity : ℚ) / 10) }
            else exCenterNeg) ∧
    (exStateBusy.decay_load 1).centers.map Center.current_load = [49]) :=
  ⟨by decide, decay_tick_load exStateNeg 1 0 exCenterNeg (by decide)⟩

/-- C8: a decay tick leaves a center whose `current_load` is `0` entirely
unchanged (so still at load `0`), for every `decay_step` and every capacity,
including zero or negative capacity. -/
theorem decay_zero_load_fixed (s : SystemState) (step : ℚ) (i : Nat) (c : Center)
    (h : s.centers[i]? = some c) (h0 : c.current_load = 0) :
    (s.decay_load step).centers[i]? = some c := by
  simp [SystemState.decay_load, List.getElem?_map, h, decay_center, h0]

/-- Witness for C8 at the negative-capacity center and decay step 7. -/
theorem decay_zero_load_fixed_witness :
    exStateNeg.centers[0]? = some exCenterNeg ∧ exCenterNeg.current_load = 0 ∧
    (exStateNeg.decay_load 7).centers[0]? = some exCenterNeg :=
  ⟨by decide, by decide,
    decay_zero_load_fixed exStateNeg 7 0 exCenterNeg (by decide) (by decide)⟩

/-! ## Frame conditions -/

theorem map_preserves_frame (f : Center → Center)
    (hf : ∀ c, (f c).id = c.id ∧ (f c).name = c.name ∧
      (f c).capacity = c.capacity ∧ (f c).is_up = c.is_up)
    (l : List Center) :
    (l.map f).map (fun c => (c.id, c.name, c.capacity, c.is_up)) =
      l.map (fun c => (c.id, c.name, c.capacity, c.is_up)) := by
  rw [List.map_map]
  apply List.map_congr_left
  intro c _
  obtain ⟨h1, h2, h3, h4⟩ := hf c
  simp [Function.comp, h1, h2, h3, h4]

/-- C10: neither routing nor a decay tick changes any center's `id`, `name`,
`capacity` or `is_up`; a successful route leaves every center other than the
chosen one untouched and only adds the request's duration to the chosen
center's load; a failed route changes nothing at all. -/
theorem route_decay_frame (s : SystemState) (req : AppointmentRequest)
    (now step : ℚ) :
    (s.decay_load step).centers.map (fun c => (c.id, c.name, c.capacity, c.is_up)) =
      s.centers.map (fun c => (c.id, c.name, c.capacity, c.is_up)) ∧
    (route_request s req now).1.centers.map
        (fun c => (c.id, c.name, c.capacity, c.is_up)) =
      s.centers.map (fun c => (c.id, c.name, c.capacity, c.is_up)) ∧
    (∀ cid reason, (route_request s req now).2 = some (cid, reason) →
      (∀ c ∈ s.centers, c.id ≠ cid → c ∈ (route_request s req now).1.centers) ∧
      (∀ c ∈ s.centers, c.id = cid →
        { c with current_load := c.current_load + req.expected_duration } ∈
          (route_request s req now).1.centers)) ∧
    ((route_request s req now).2 = none → (route_request s req now).1 = s) := by
  refine ⟨?_, ?_, ?_, ?_⟩
  · simp only [SystemState.decay_load]
    apply map_preserves_frame
    intro c
    by_cases h : 0 < c.current_load <;> simp [decay_center, h]
  · rcases hch : choose_best_center s.centers req with - | ⟨center, reason0⟩
    · simp [route_request, hch]
    · simp only [route_request, hch, SystemState.add_event]
      apply map_preserves_frame
      intro c
      by_cases h : c.id = center.id <;> simp [h]
  · intro cid reason hres
    rcases hch : choose_best_center s.centers req with - | ⟨center, reason0⟩
    · rw [route_request, hch] at hres
      exact absurd hres (by simp)
    · rw [route_request] at hres ⊢
      rw [hch] at hres ⊢
      simp only [SystemState.add_event, Option.some.injEq, Prod.mk.injEq] at hres ⊢
      obtain ⟨hcid, -⟩ := hres
      constructor
      · intro c hc hne
        refine List.mem_map.mpr ⟨c, hc, ?_⟩
        rw [if_neg (by rw [hcid]; exact hne)]
      · intro c hc heq
        refine List.mem_map.mpr ⟨c, hc, ?_⟩
        rw [if_pos (by rw [hcid]; exact heq)]
  · intro hres
    rcases hch : choose_best_center s.centers req with - | ⟨center, reason0⟩
    · simp [route_request, hch]
    · rw [route_request, hch] at hres
      exact absurd hres (by simp)

/-- Witness for C10 at the Tier-A scenario registry with decay step 1. -/
theorem route_decay_frame_witness :
    (exStateAB.decay_load 1).centers.map
        (fun c => (c.id, c.name, c.capacity, c.is_up)) =
      exStateAB.centers.map (fun c => (c.id, c.name, c.capacity, c.is_up)) ∧
    (route_request exStateAB exReqLow 0).1.centers.map
        (fun c => (c.id, c.name, c.capacity, c.is_up)) =
      exStateAB.centers.map (fun c => (c.id, c.name, c.capacity, c.is_up)) ∧
    (∀ cid reason, (route_request exStateAB exReqLow 0).2 = some (cid, reason) →
      (∀ c ∈ exStateAB.centers, c.id ≠ cid →
        c ∈ (route_request exStateAB exReqLow 0).1.centers) ∧
      (∀ c ∈ exStateAB.centers, c.id = cid →
        { c with current_load := c.current_load + exReqLow.expected_duration } ∈
          (route_request exStateAB exReqLow 0).1.centers)) ∧
    ((route_request exStateAB exReqLow 0).2 = none →
      (route_request exStateAB exReqLow 0).1 = exStateAB) :=
  route_decay_frame exStateAB exReqLow 0 1

/-! ## Sequences of core operations: the load invariant -/

/-- A core operation: add a center, route a request (the core assumes a
validated request), or run one decay tick. -/
inductive Op where
  | addCenter (name : String) (capacity : Int)
  | route (req : AppointmentRequest) (now : ℚ)
  | decayTick (step : ℚ)

/-- Applying one core operation to the state. -/
def applyOp (s : SystemState) : Op → SystemState
  | .addCenter n cap => (s.add_center n cap).1
  | .route req now => (route_request s req now).1
  | .decayTick step => s.decay_load step

/-- Running a sequence of core operations. -/
def runOps (s : SystemState) (ops : List Op) : SystemState :=
  ops.foldl applyOp s

/-- The boundary validates `expected_duration > 0` before the core runs. -/
def Op.validDuration : Op → Prop
  | .route req _ => 0 < req.expected_duration
  | _ => True

theorem applyOp_nonneg (s : SystemState) (op : Op)
    (hs : ∀ c ∈ s.centers, 0 ≤ c.current_load) (hop : op.validDuration) :
    ∀ c ∈ (applyOp s op).centers, 0 ≤ c.current_load := by
  cases op with
  | addCenter n cap =>
    intro c hc
    simp only [applyOp, SystemState.add_center, List.mem_append,
      List.mem_singleton] at hc
    rcases hc with hc | hc
    · exact hs c hc
    · rw [hc]
  | route req now =>
    have hdur : 0 < req.expected_duration := hop
    intro c hc
    rcases hch : choose_best_center s.centers req with - | ⟨center, reason⟩
    · rw [applyOp, route_request, hch] at hc
      exact hs c hc
    · rw [applyOp, route_request, hch] at hc
      simp only [SystemState.add_event, List.mem_map] at hc
      obtain ⟨d, hd, rfl⟩ := hc
      by_cases h : d.id = center.id
      · simp only [if_pos h]
        exact add_nonneg (hs d hd) (le_of_lt hdur)
      · simp only [if_neg h]
        exact hs d hd
  | decayTick step =>
    intro c hc
    simp only [applyOp, SystemState.decay_load, List.mem_map] at hc
    obtain ⟨d, hd, rfl⟩ := hc
    by_cases h : 0 < d.current_load
    · simp only [decay_center, if_pos h]
      exact le_max_left 0 _
    · simp only [decay_center, if_neg h]
      exact hs d hd

/-- C6: starting from the initial (empty) state, after any sequence of core
operations in which every routed request has positive expected duration,
every center's `current_load` is non-negative (each center starts at load 0
when added, so the invariant holds after every step of every such
sequence). -/
theorem load_nonneg_invariant (ops : List Op)
    (hval : ∀ op ∈ ops, op.validDuration) :
    ∀ c ∈ (runOps SystemState.init ops).centers, 0 ≤ c.current_load := by
  suffices h : ∀ (l : List Op), (∀ op ∈ l, Op.validDuration op) →
      ∀ s : SystemState, (∀ c ∈ s.centers, 0 ≤ c.current_load) →
      ∀ c ∈ (runOps s l).centers, 0 ≤ c.current_load by
    exact h ops hval SystemState.init (by simp [SystemState.init])
  intro l
  induction l with
  | nil =>
    intro _ s hs
    simpa [runOps] using hs
  | cons op rest ih =>
    intro hv s hs
    have h1 := applyOp_nonneg s op hs (hv op (List.mem_cons_self _ _))
    have h2 := ih (fun o ho => hv o (List.mem_cons_of_mem _ ho)) (applyOp s op) h1
    simpa [runOps, List.foldl_cons] using h2

/-- Witness for C6 on a concrete three-operation run. -/
theorem load_nonneg_invariant_witness :
    (∀ op ∈ [Op.addCenter "A" 10, Op.route exReqLow 0, Op.decayTick 1],
      op.validDuration) ∧
    (∀ c ∈ (runOps SystemState.init
        [Op.addCenter "A" 10, Op.route exReqLow 0, Op.decayTick 1]).centers,
      0 ≤ c.current_load) := by
  have hv : ∀ op ∈ [Op.addCenter "A" 10, Op.route exReqLow 0, Op.decayTick 1],
      op.validDuration := by
    intro op hop
    fin_cases hop
    · exact trivial
    · exact (by norm_num : (0:ℚ) < 20)
    · exact trivial
  exact ⟨hv, load_nonneg_invariant _ hv⟩

/-! ## The request lifecycle

`main.py` is the only caller of `route_request`: each `/appointments` call
mints a fresh request via `create_request` and routes exactly that request
once. A boundary operation is therefore an `add_center`, one
create-and-route call, or a decay tick. -/

/-- One operation of the transport boundary (`main.py`). -/
inductive BOp where
  | addCenter (name : String) (capacity : Int)
  | requestAppointment (urgency : Int) (duration now : ℚ)
  | decayTick (step : ℚ)

/-- Applying one boundary operation: `requestAppointment` embeds the
`/appointments` handler, which creates a request and immediately routes it. -/
def applyBOp (s : SystemState) : BOp → SystemState
  | .addCenter n cap => (s.add_center n cap).1
  | .requestAppointment u d now =>
    (route_request (s.create_request u d now).1 (s.create_request u d now).2 now).1
  | .decayTick step => s.decay_load step

/-- Running a boundary operation sequence from the initial state. -/
def runBOps (ops : List BOp) : SystemState :=
  ops.foldl applyBOp SystemState.init

/-- Request bookkeeping invariant: request ids strictly increase in
insertion order and stay below the id counter, and a request is assigned a
center only with a matching routing event in the log. -/
def ReqInv (s : SystemState) : Prop :=
  s.requests.Pairwise (fun a b => a.id < b.id) ∧
  (∀ r ∈ s.requests, r.id < s.next_request_id) ∧
  (∀ r ∈ s.requests, r.assigned_center_id = none ∨
    ∃ e ∈ s.history, e.request_id = r.id ∧ r.assigned_center_id = some e.center_id)

theorem pairwise_id_unique {l : List AppointmentRequest}
    (h : l.Pairwise (fun a b => a.id < b.id)) :
    ∀ r ∈ l, ∀ r' ∈ l, r'.id = r.id → r' = r := by
  induction l with
  | nil => simp
  | cons a t ih =>
    intro r hr r' hr' hid
    rw [List.pairwise_cons] at h
    rcases List.mem_cons.mp hr with rfl | hr2 <;>
      rcases List.mem_cons.mp hr' with rfl | hr2'
    · rfl
    · exact absurd hid (ne_of_gt (h.1 r' hr2'))
    · exact absurd hid (ne_of_lt (h.1 r hr2))
    · exact ih h.2 r hr2 r' hr2' hid

theorem applyBOp_step (s : SystemState) (op : BOp) (h : ReqInv s) :
    ReqInv (applyBOp s op) ∧
    (∀ r ∈ s.requests, r ∈ (applyBOp s op).requests) ∧
    ∀ r ∈ s.requests, ∀ r' ∈ (applyBOp s op).requests, r'.id = r.id → r' = r := by
  obtain ⟨hpw, hlt, hasg⟩ := h
  cases op with
  | addCenter n cap =>
    exact ⟨⟨hpw, hlt, hasg⟩, fun r hr => hr,
      fun r hr r' hr' hid => pairwise_id_unique hpw r hr r' hr' hid⟩
  | decayTick step =>
    exact ⟨⟨hpw, hlt, hasg⟩, fun r hr => hr,
      fun r hr r' hr' hid => pairwise_id_unique hpw r hr r' hr' hid⟩
  | requestAppointment u d now =>
    rcases hch : choose_best_center s.centers
        ⟨s.next_request_id, u, d, now, none⟩ with - | ⟨center, reason⟩
    · have hreqs : (applyBOp s (.requestAppointment u d now)).requests =
          s.requests ++ [⟨s.next_request_id, u, d, now, none⟩] := by
        simp [applyBOp, SystemState.create_request, route_request, hch]
      have hhist : (applyBOp s (.requestAppointment u d now)).history = s.history := by
        simp [applyBOp, SystemState.create_request, route_request, hch]
      have hnextr : (applyBOp s (.requestAppointment u d now)).next_request_id =
          s.next_request_id + 1 := by
        simp [applyBOp, SystemState.create_request, route_request, hch]
      refine ⟨?_, ?_⟩
      · unfold ReqInv
        rw [hreqs, hhist, hnextr]
        refine ⟨?_, ?_, ?_⟩
        · rw [List.pairwise_append]
          refine ⟨hpw, List.pairwise_singleton _ _, ?_⟩
          intro a ha b hb
          rw [List.mem_singleton] at hb
          rw [hb]
          exact hlt a ha
        · intro r hr
          rcases List.mem_append.mp hr with hr | hr
          · exact lt_trans (hlt r hr) (Nat.lt_succ_self _)
          · rw [List.mem_singleton] at hr
            rw [hr]
            exact Nat.lt_succ_self _
        · intro r hr
          rcases List.mem_append.mp hr with hr | hr
          · exact hasg r hr
          · rw [List.mem_singleton] at hr
            rw [hr]
            exact Or.inl rfl
      constructor
      · intro r hr
        rw [hreqs]
        exact List.mem_append_left _ hr
      · intro r hr r' hr' hid
        rw [hreqs] at hr'
        rcases List.mem_append.mp hr' with hr' | hr'
        · exact pairwise_id_unique hpw r hr r' hr' hid
        · rw [List.mem_singleton] at hr'
          rw [hr'] at hid
          exact absurd hid (ne_of_gt (hlt r hr))
    · have hupd : ∀ r ∈ s.requests,
          (if r.id = s.next_request_id then
            { r with assigned_center_id := some center.id } else r) = r := by
        intro r hr
        exact if_neg (ne_of_lt (hlt r hr))
      have hreqs : (applyBOp s (.requestAppointment u d now)).requests =
          s.requests ++ [⟨s.next_request_id, u, d, now, some center.id⟩] := by
        simp only [applyBOp, SystemState.create_request, route_request, hch,
          SystemState.add_event, List.map_append]
        rw [List.map_congr_left hupd]
        simp
      have hhist : (applyBOp s (.requestAppointment u d now)).history =
          s.history ++ [⟨now, s.next_request_id, center.id, reason⟩] := by
        simp [applyBOp, SystemState.create_request, route_request, hch,
          SystemState.add_event]
      have hnextr : (applyBOp s (.requestAppointment u d now)).next_request_id =
          s.next_request_id + 1 := by
        simp [applyBOp, SystemState.create_request, route_request, hch,
          SystemState.add_event]
      refine ⟨?_, ?_⟩
      · unfold ReqInv
        rw [hreqs, hhist, hnextr]
        refine ⟨?_, ?_, ?_⟩
        · rw [List.pairwise_append]
          refine ⟨hpw, List.pairwise_singleton _ _, ?_⟩
          intro a ha b hb
          rw [List.mem_singleton] at hb
          rw [hb]
          exact hlt a ha
        · intro r hr
          rcases List.mem_append.mp hr with hr | hr
          · exact lt_trans (hlt r hr) (Nat.lt_succ_self _)
          · rw [List.mem_singleton] at hr
            rw [hr]
            exact Nat.lt_succ_self _
        · intro r hr
          rcases List.mem_append.mp hr with hr | hr
          · rcases hasg r hr with hn | ⟨e, he, h1, h2⟩
            · exact Or.inl hn
            · exact Or.inr ⟨e, List.mem_append_left _ he, h1, h2⟩
          · rw [List.mem_singleton] at hr
            rw [hr]
            exact Or.inr ⟨⟨now, s.next_request_id, center.id, reason⟩,
              List.mem_append_right _ (List.mem_singleton_self _), rfl, rfl⟩
      constructor
      · intro r hr
        rw [hreqs]
        exact List.mem_append_left _ hr
      · intro r hr r' hr' hid
        rw [hreqs] at hr'
        rcases List.mem_append.mp hr' with hr' | hr'
        · exact pairwise_id_unique hpw r hr r' hr' hid
        · rw [List.mem_singleton] at hr'
          rw [hr'] at hid
          exact absurd hid (ne_of_gt (hlt r hr))

theorem foldBOps_stable (more : List BOp) :
    ∀ s : SystemState, ReqInv s →
    ReqInv (more.foldl applyBOp s) ∧
    (∀ r ∈ s.requests, r ∈ (more.foldl applyBOp s).requests) ∧
    ∀ r ∈ s.requests, ∀ r' ∈ (more.foldl applyBOp s).requests,
      r'.id = r.id → r' = r := by
  induction more with
  | nil =>
    intro s hs
    exact ⟨hs, fun r hr => hr,
      fun r hr r' hr' hid => pairwise_id_unique hs.1 r hr r' hr' hid⟩
  | cons op rest ih =>
    intro s hs
    obtain ⟨h1, h2, h3⟩ := applyBOp_step s op hs
    obtain ⟨h4, h5, h6⟩ := ih (applyBOp s op) h1
    refine ⟨h4, ?_, ?_⟩
    · intro r hr
      exact h5 r (h2 r hr)
    · intro r hr r' hr' hid
      exact h6 r (h2 r hr) r' hr' hid

/-- C7: along any run of boundary operations, every stored request is
unassigned unless a successful route on it left a matching event in the
log, and a stored request's `assigned_center_id` — in particular once it is
set — is never changed by any later operation (each request is routed at
most once, by the boundary's call structure). -/
theorem request_assigned_once (ops more : List BOp) :
    (∀ r ∈ (runBOps ops).requests, r.assigned_center_id = none ∨
      ∃ e ∈ (runBOps ops).history, e.request_id = r.id ∧
        r.assigned_center_id = some e.center_id) ∧
    (∀ r ∈ (runBOps ops).requests, ∀ r' ∈ (runBOps (ops ++ more)).requests,
      r'.id = r.id → r'.assigned_center_id = r.assigned_center_id) := by
  have hinit : ReqInv SystemState.init := by
    refine ⟨List.Pairwise.nil, ?_, ?_⟩ <;> simp [SystemState.init]
  have h1 := foldBOps_stable ops SystemState.init hinit
  have h2 := foldBOps_stable more (ops.foldl applyBOp SystemState.init) h1.1
  refine ⟨h1.1.2.2, ?_⟩
  intro r hr r' hr' hid
  have hr2 : r' ∈ (more.foldl applyBOp (ops.foldl applyBOp SystemState.init)).requests := by
    rw [runBOps, List.foldl_append] at hr'
    exact hr'
  have : r' = r := h2.2.2 r hr r' hr2 hid
  rw [this]

/-- Witness for C7 on a concrete run: two appointments around a decay
tick. -/
theorem request_assigned_once_witness :
    (∀ r ∈ (runBOps [BOp.addCenter "A" 10,
        BOp.requestAppointment 3 20 0]).requests,
      r.assigned_center_id = none ∨
      ∃ e ∈ (runBOps [BOp.addCenter "A" 10,
          BOp.requestAppointment 3 20 0]).history,
        e.request_id = r.id ∧ r.assigned_center_id = some e.center_id) ∧
    (∀ r ∈ (runBOps [BOp.addCenter "A" 10,
        BOp.requestAppointment 3 20 0]).requests,
      ∀ r' ∈ (runBOps ([BOp.addCenter "A" 10, BOp.requestAppointment 3 20 0] ++
          [BOp.decayTick 1, BOp.requestAppointment 9 5 1])).requests,
        r'.id = r.id → r'.assigned_center_id = r.assigned_center_id) :=
  request_assigned_once [BOp.addCenter "A" 10, BOp.requestAppointment 3 20 0]
    [BOp.decayTick 1, BOp.requestAppointment 9 5 1]

/-! ## Concurrent load accounting on a single center

Each center owns a lock; the only protected mutations are the increment in
`route_request` (`current_load += expected_duration`) and the per-center
body of `decay_load`. The lock serializes these critical sections, so any
concurrent execution against one center is an interleaving: a list of
atomic steps in which each route call contributes exactly one `routeAdd`
step carrying its own duration. -/

/-- One atomic critical section on a single center. -/
inductive NodeOp where
  | routeAdd (duration : ℚ)
  | decayTick (step : ℚ)

/-- The state change of one atomic critical section: the `routeAdd` update
is the locked increment of `route_request`; `decayTick` is `decay_center`,
the locked per-center body of `decay_load`. -/
def nodeStep (c : Center) : NodeOp → Center
  | .routeAdd d => { c with current_load := c.current_load + d }
  | .decayTick step => decay_center step c

/-- Running an interleaving of critical sections on one center. -/
def runNode (c : Center) (ops : List NodeOp) : Center :=
  ops.foldl nodeStep c

/-- Sum of the durations of all route sections in the trace, each counted
exactly once. -/
def totalRouted : List NodeOp → ℚ
  | [] => 0
  | .routeAdd d :: rest => d + totalRouted rest
  | .decayTick _ :: rest => totalRouted rest

/-- The load one decay tick actually removes: nothing at non-positive load,
else `decay_step * capacity / 10` clipped at the available load. -/
def appliedDecay (c : Center) (step : ℚ) : ℚ :=
  if 0 < c.current_load then min c.current_load (step * (c.capacity : ℚ) / 10)
  else 0

/-- Total decay actually applied along a trace. -/
def totalDecay (c : Center) : List NodeOp → ℚ
  | [] => 0
  | .routeAdd d :: rest => totalDecay (nodeStep c (.routeAdd d)) rest
  | .decayTick step :: rest =>
    appliedDecay c step + totalDecay (nodeStep c (.decayTick step)) rest

theorem decay_center_applied (c : Center) (step : ℚ) :
    (decay_center step c).current_load = c.current_load - appliedDecay c step := by
  unfold decay_center appliedDecay
  by_cases h : 0 < c.current_load
  · rw [if_pos h, if_pos h]
    rcases le_total (step * (c.capacity : ℚ) / 10) c.current_load with hle | hle
    · rw [min_eq_right hle]
      show max 0 (c.current_load - step * (c.capacity : ℚ) / 10) = _
      rw [max_eq_right (by linarith)]
    · rw [min_eq_left hle]
      show max 0 (c.current_load - step * (c.capacity : ℚ) / 10) = _
      rw [max_eq_left (by linarith)]
      ring
  · rw [if_neg h, if_neg h]
    ring

theorem nodeStep_frame (c : Center) (op : NodeOp) :
    (nodeStep c op).capacity = c.capacity := by
  cases op with
  | routeAdd d => rfl
  | decayTick step =>
    by_cases h : 0 < c.current_load <;> simp [nodeStep, decay_center, h]

/-- C9: along any interleaving of route critical sections and decay ticks
on one center, every route call's duration is added exactly once: the final
load is the initial load plus the sum of all routed durations minus the
decay actually applied, with no update lost or double-applied. -/
theorem concurrent_load_accounting (c : Center) (ops : List NodeOp) :
    (runNode c ops).current_load =
      c.current_load + totalRouted ops - totalDecay c ops := by
  induction ops generalizing c with
  | nil => simp [runNode, totalRouted, totalDecay]
  | cons op rest ih =>
    cases op with
    | routeAdd d =>
      have h := ih (nodeStep c (.routeAdd d))
      rw [runNode] at h
      rw [runNode, List.foldl_cons]
      simp only [totalRouted, totalDecay]
      rw [h]
      have h2 : (nodeStep c (.routeAdd d)).current_load = c.current_load + d := rfl
      rw [h2]
      ring
    | decayTick step =>
      have h := ih (nodeStep c (.decayTick step))
      rw [runNode] at h
      rw [runNode, List.foldl_cons]
      simp only [totalRouted, totalDecay]
      rw [h]
      have h2 : (nodeStep c (.decayTick step)).current_load =
          c.current_load - appliedDecay c step := decay_center_applied c step
      rw [h2]
      ring
